import Mathlib

/-!
Shallow embedding of the chess rules engine in `src/game/chess.py`
(classes `Math`, `GameEngine`, `Piece` and its six variants, `Move`,
`CastlingMove`, `Castling`, `Board`).

Modelling conventions:
* Python tuples of two ints become `Coord := Int × Int`.
* Python `is` between small interned values (the color strings "W"/"B",
  the literal "vertical", the ints 0..7 that appear in these comparisons)
  behaves as equality and is modelled as `=`.
* Fallible Python code (KeyError from `board[...]` on a missing key,
  AttributeError from `None.moved` / `None.position`, IndexError from
  `[...][0]`, the explicit `raise` in `GameEngine.move`) is modelled with
  `Except String`.
* Python sets of coordinates become `Finset Coord`; set truthiness is
  nonemptiness, and the falsy values `None` / `False` returned by
  `check_move` are collapsed into `none` of an `Option`, with
  `checkMoveTruthy` giving the truthiness Python tests downstream.
* The per-piece `find_cache` memoisation is omitted: for every piece the
  cached function is a pure function of the origin (the cache never
  changes a returned value), so dropping it is value-preserving.
* Boards always carry exactly the 64 in-range keys, so interior square
  lookups whose keys are produced by `clean_moves` use the occupancy map
  directly; lookups whose key comes from unchecked arithmetic use the
  KeyError-aware `Board.get?`.
-/

deriving instance DecidableEq for Except

abbrev Coord := Int × Int

inductive Color
  | W
  | B
deriving DecidableEq

/-- `color_change = {"W": "B", "B": "W"}` -/
def colorChange : Color → Color
  | Color.W => Color.B
  | Color.B => Color.W

inductive Kind
  | rook
  | bishop
  | knight
  | pawn
  | king
  | queen
deriving DecidableEq

/--
A piece as in class `Piece` plus the variant-specific constructor state:
`yInitial`/`yAdd` are set by `Pawn.__init__` ((6,-1) if the pawn's color
plays "down" else (1,1)) and `castleY` is the `y` of the King's
construction position, which fixes its two castling descriptors.
For non-pawns the pawn fields are unused, and `castleY` is unused for
non-kings.
-/
structure Piece where
  kind : Kind
  color : Color
  pos : Coord
  moved : Int := 0
  yInitial : Int := 0
  yAdd : Int := 0
  castleY : Int := 0
deriving DecidableEq

/-- `Piece.__eq__`: same concrete class, same position, same color. -/
def pieceEq (a b : Piece) : Bool :=
  a.kind = b.kind && a.pos = b.pos && a.color = b.color

/--
The board of `class Board(OrderedDict)`: occupancy map (meaningful on the
64 in-range keys), the captured list `killed`, `turn` and `player_down`.
-/
structure Board where
  occ : Coord → Option Piece
  killed : List Piece
  turn : Color
  playerDown : Color

/-- `Math.check_range` with the default bounds 0 (included), 8 (excluded). -/
def checkRange (m : Coord) : Bool :=
  0 ≤ m.1 && m.1 < 8 && 0 ≤ m.2 && m.2 < 8

/-- `board[p]`: KeyError when the key is outside the 64 squares. -/
def Board.get? (b : Board) (p : Coord) : Except String (Option Piece) :=
  if checkRange p then Except.ok (b.occ p) else Except.error "KeyError"

/-- `board[p] = v` (writes in the engine always target in-range keys). -/
def Board.set (b : Board) (p : Coord) (v : Option Piece) : Board :=
  { b with occ := fun q => if q = p then v else b.occ q }

/-- `Board.flip_color` -/
def Board.flipColor (b : Board) : Board :=
  { b with turn := colorChange b.turn }

/-- The 64 board keys, in the order `Board.__init__` sorts them
(`x + (1+y)*100`: y-major, x ascending). -/
def allCoords : List Coord :=
  (List.range 8).flatMap (fun y => (List.range 8).map (fun x => ((x : Int), (y : Int))))

/-- `Board.get_pieces(color)`: the color's pieces in board order (the
Python `set` only affects iteration order, which no caller relies on
beyond single-king lookup). -/
def Board.getPieces (b : Board) (c : Color) : List Piece :=
  allCoords.filterMap (fun p =>
    match b.occ p with
    | some pc => if pc.color = c then some pc else none
    | none => none)

/-- `Board.get_king`: first King of the color; IndexError when absent. -/
def Board.getKing (b : Board) (c : Color) : Except String Piece :=
  match (b.getPieces c).filter (fun p => p.kind = Kind.king) with
  | [] => Except.error "IndexError"
  | k :: _ => Except.ok k

/-- Membership of a piece in a list up to `Piece.__eq__`. -/
def pieceIn (p : Piece) (l : List Piece) : Bool :=
  l.any (fun q => pieceEq p q)

/-- Equality of Python piece sets (mutual inclusion up to `Piece.__eq__`). -/
def pieceSetEq (l1 l2 : List Piece) : Bool :=
  l1.all (fun p => pieceIn p l2) && l2.all (fun p => pieceIn p l1)

/-- Python list equality for the `killed` lists (pointwise `Piece.__eq__`). -/
def killedEq (l1 l2 : List Piece) : Bool :=
  l1.length = l2.length && (l1.zip l2).all (fun pr => pieceEq pr.1 pr.2)

/-- `Board.__eq__`: white piece set, black piece set, killed list,
player_down and turn all agree. -/
def boardEq (b1 b2 : Board) : Bool :=
  pieceSetEq (b1.getPieces Color.W) (b2.getPieces Color.W)
    && pieceSetEq (b1.getPieces Color.B) (b2.getPieces Color.B)
    && killedEq b1.killed b2.killed
    && b1.playerDown = b2.playerDown
    && b1.turn = b2.turn

/-- `Math.safe_divide`: `int(a/b)` truncates toward zero; 0 when `b = 0`
(the "vertical" default is handled at `slope`'s type). -/
def safeDivide (a b : Int) : Int :=
  if b = 0 then 0 else Int.tdiv a b

inductive Slope
  | vertical
  | val (k : Int)
deriving DecidableEq

/-- `Math.slope`: the string default "vertical" is a distinct case. -/
def lineSlope (s e : Coord) : Slope :=
  if s.1 - e.1 = 0 then Slope.vertical else Slope.val (Int.tdiv (s.2 - e.2) (s.1 - e.1))

/-- `Math.line(end, start=start)` applied to a candidate `m`. -/
def inLine (s e m : Coord) : Bool :=
  match lineSlope s e with
  | Slope.vertical => m.1 = e.1
  | Slope.val k => m.2 - e.2 = k * (m.1 - e.1)

/-- `Math.diff_points`: per-axis sign of `start - end`. -/
def diffPoints (s e : Coord) : Coord :=
  (safeDivide (s.1 - e.1) ((s.1 - e.1).natAbs : Int),
   safeDivide (s.2 - e.2) ((s.2 - e.2).natAbs : Int))

/-- Python tuple `<=` on int pairs: lexicographic. -/
def tupLe (m e : Coord) : Bool :=
  m.1 < e.1 || (m.1 = e.1 && m.2 ≤ e.2)

/-- `Math.end_point_check`: `move <= end` when -1 occurs in the diff,
else `move >= end`, both lexicographic on tuples. -/
def endPointCheck (diff : Coord) (m e : Coord) : Bool :=
  if diff.1 = -1 || diff.2 = -1 then tupLe m e else tupLe e m

/-- `Math.clean_moves` (minus the cache): range-clip and drop the origin. -/
def cleanMoves (x y : Int) (moves : Finset Coord) : Finset Coord :=
  (moves.filter (fun m => checkRange m = true)).erase (x, y)

/-- `Math.filter_line`: keep candidates on the line through start and
end, on start's side (same diff) and not past the end. -/
def filterLine (start en : Coord) (moves : Finset Coord) : Finset Coord :=
  moves.filter (fun m =>
    inLine start en m = true ∧ diffPoints start m = diffPoints start en ∧
      endPointCheck (diffPoints start en) m en = true)

/--
`Math.check_blocks`. `board[end]` is read first (KeyError applies);
an empty candidate set or an end outside it is already invalid; the
"blocked" test counts the empty squares among the candidates and only
fails when fewer than `len(moves) - 1` of them are empty; a friendly
piece on the end square invalidates; Knight and King skip the blocked
test but not the friendly-end test. Interior candidates come from
`clean_moves` and are in range, so they are read off `occ` directly.
-/
def checkBlocks (piece : Piece) (en : Coord) (b : Board) (moves : Finset Coord) :
    Except String (Option (Finset Coord)) := do
  let itemAtEnd ← b.get? en
  if moves = ∅ ∨ en ∉ moves then
    return none
  else
    let empt := (moves.filter (fun i => (b.occ i).isNone = true)).card
    let blocked : Bool := !(empt = moves.card || empt = moves.card - 1)
    let lastItemInvalid : Bool :=
      match itemAtEnd with
      | some q => q.color = piece.color
      | none => false
    if (!(blocked || lastItemInvalid)) ||
        ((piece.kind = Kind.knight || piece.kind = Kind.king) && !lastItemInvalid) then
      return some moves
    else
      return none

/-- Python truthiness of a `check_move` result: `None`/`False` and the
empty set are falsy, a nonempty set is truthy. -/
def checkMoveTruthy : Option (Finset Coord) → Bool
  | none => false
  | some s => s ≠ ∅

/-- `Rook.find` before `clean_moves`: full file plus full rank. -/
def rookRaw (x y : Int) : Finset Coord :=
  (((List.range 8).map (fun i => ((x, (i : Int)) : Coord))) ++
    ((List.range 8).map (fun i => (((i : Int), y) : Coord)))).toFinset

/-- `Bishop.find` before `clean_moves`: the four diagonals, k = 1..7. -/
def bishopRaw (x y : Int) : Finset Coord :=
  ((List.range 7).flatMap (fun i =>
    ([(x + ((i : Int) + 1), y + ((i : Int) + 1)),
      (x + ((i : Int) + 1), y - ((i : Int) + 1)),
      (x - ((i : Int) + 1), y + ((i : Int) + 1)),
      (x - ((i : Int) + 1), y - ((i : Int) + 1))] : List Coord))).toFinset

/-- `Knight.find` before `clean_moves`: product([x-1,x+1],[y-2,y+2]) ∪
product([x-2,x+2],[y-1,y+1]). -/
def knightRaw (x y : Int) : Finset Coord :=
  ([(x - 1, y - 2), (x - 1, y + 2), (x + 1, y - 2), (x + 1, y + 2),
    (x - 2, y - 1), (x - 2, y + 1), (x + 2, y - 1), (x + 2, y + 1)] : List Coord).toFinset

/-- `King.find`'s `normal_moves`: product([x-1,x+1,x],[y+1,y-1,y]). -/
def kingNormalRaw (x y : Int) : Finset Coord :=
  ([(x - 1, y + 1), (x - 1, y - 1), (x - 1, y), (x + 1, y + 1), (x + 1, y - 1),
    (x + 1, y), (x, y + 1), (x, y - 1), (x, y)] : List Coord).toFinset

/-- `Pawn._kill_moves`: the positions of enemy pieces standing on the two
forward-diagonal squares (range-checked before the board lookup). -/
def pawnKillMoves (p : Piece) (x y : Int) (b : Board) : Finset Coord :=
  let positions : List Coord := [(x - 1, y + p.yAdd), (x + 1, y + p.yAdd)]
  let pieces := (positions.filter (fun q => checkRange q = true)).map b.occ
  (((pieces.filterMap id).filter (fun q => ¬(q.color = p.color))).map (fun q => q.pos)).toFinset

/-- `Pawn._find_non_kill_moves`: single step into an empty square, double
step from the starting rank when both squares are empty. The forward
lookup `board[move_a]` is not range-guarded and can raise KeyError. -/
def pawnNonKill (p : Piece) (x y : Int) (b : Board) : Except String (Finset Coord) := do
  let moveA : Coord := (x, y + p.yAdd)
  let pieceAtA ← b.get? moveA
  let s1 : Finset Coord := if pieceAtA = none then {moveA} else ∅
  if y = p.yInitial then
    let moveB : Coord := (x, y + p.yAdd * 2)
    let pieceA ← b.get? moveB
    let pieceB ← b.get? (moveB.1, moveB.2 - p.yAdd)
    if pieceA = none ∧ pieceB = none then
      return s1 ∪ {moveB}
    else
      return s1
  else
    return s1

/-- `Pawn.find`: non-kill moves united with kill moves (uncached). -/
def pawnFind (p : Piece) (x y : Int) (b : Board) : Except String (Finset Coord) := do
  let nonKill ← pawnNonKill p x y b
  return nonKill ∪ pawnKillMoves p x y b

/--
`check_move` for the five non-King variants (`square_attacked` only ever
calls these, King attackers being filtered out):
Rook/Bishop run `check_blocks ∘ filter_line ∘ find`; Knight runs
`check_blocks ∘ find`; Queen runs only `filter_line` over the union of
Bishop and Rook geometry (no `check_blocks` decorator in the source);
Pawn membership-tests the end in `find`. The King branch is never
reached (the full dispatch `Piece.checkMove` routes Kings elsewhere).
-/
def checkMoveNonKing (p : Piece) (en : Coord) (b : Board) :
    Except String (Option (Finset Coord)) :=
  match p.kind with
  | Kind.rook =>
      checkBlocks p en b (filterLine p.pos en (cleanMoves p.pos.1 p.pos.2 (rookRaw p.pos.1 p.pos.2)))
  | Kind.bishop =>
      checkBlocks p en b (filterLine p.pos en (cleanMoves p.pos.1 p.pos.2 (bishopRaw p.pos.1 p.pos.2)))
  | Kind.knight =>
      checkBlocks p en b (cleanMoves p.pos.1 p.pos.2 (knightRaw p.pos.1 p.pos.2))
  | Kind.queen =>
      Except.ok (some (filterLine p.pos en
        (cleanMoves p.pos.1 p.pos.2 (bishopRaw p.pos.1 p.pos.2) ∪
          cleanMoves p.pos.1 p.pos.2 (rookRaw p.pos.1 p.pos.2))))
  | Kind.pawn => do
      let moves ← pawnFind p p.pos.1 p.pos.2 b
      if en ∈ moves then return some moves else return none
  | Kind.king => Except.ok none

/-- `GameEngine.square_attacked`: every non-King piece of the color
opposite to `board.turn` probes `check_move(end)`; at least one truthy
result means attacked. -/
def squareAttacked (en : Coord) (b : Board) : Except String Bool := do
  let oppositeTeam := (b.getPieces (colorChange b.turn)).filter (fun p => ¬(p.kind = Kind.king))
  let attackers ← oppositeTeam.mapM (fun p => checkMoveNonKing p en b)
  return (attackers.filter (fun r => checkMoveTruthy r = true)).length ≥ 1

/-- `GameEngine.king_attacked`: the current turn's king's square. -/
def kingAttacked (b : Board) : Except String Bool := do
  let kg ← b.getKing b.turn
  squareAttacked kg.pos b

/-- The fields `Castling.__init__` computes from `(y, start, end)` and the
king's construction position (whose y equals `y`). -/
structure Castling where
  squares : List Coord
  rookStart : Coord
  kingEnd : Coord
  rookEnd : Coord
deriving DecidableEq

/-- `Castling.__init__` for `Castling(y, s, e, king)`:
squares = [(x,y) for x in range(s,e)], rook at file 0/7, king to file
2/6, rook to file 3/5 depending on `s == 1`. -/
def mkCastling (y s e : Int) : Castling :=
  { squares := (List.range (e - s).toNat).map (fun i => ((s + (i : Int), y) : Coord))
    rookStart := ((if s = 1 then (0 : Int) else 7), y)
    kingEnd := ((if s = 1 then (2 : Int) else 6), y)
    rookEnd := ((if s = 1 then (3 : Int) else 5), y) }

/-- The transit-square loop of `Castling.is_valid`: each square must be
empty and unattacked, in order. -/
def castlingSquaresFree (b : Board) : List Coord → Except String Bool
  | [] => Except.ok true
  | sq :: rest => do
      let item ← b.get? sq
      if item.isSome then
        return false
      else do
        let att ← squareAttacked sq b
        if att then return false else castlingSquaresFree b rest

/--
`Castling.is_valid`: the king's current square unattacked, all transit
squares empty and unattacked, and the moved-counter test exactly as in
the source: reject only when NOT (rook unmoved OR king unmoved), i.e.
only when both have moved; `board[rook_start].moved` raises
AttributeError when the rook square is empty. Returning `self` is
modelled as `true`.
-/
def Castling.isValid (c : Castling) (kingP : Piece) (b : Board) : Except String Bool := do
  let ka ← kingAttacked b
  if ka then
    return false
  else do
    let free ← castlingSquaresFree b c.squares
    if !free then
      return false
    else do
      let rkOpt ← b.get? c.rookStart
      match rkOpt with
      | none => Except.error "AttributeError"
      | some rk =>
          if !(rk.moved = 0 || kingP.moved = 0) then
            return false
          else
            return true

/-- `King.is_castling`: the castling dict has exactly the two keys
((4,castleY),(2,castleY)) and ((4,castleY),(6,castleY)); on a hit the
descriptor is validated. -/
def kingIsCastling (p : Piece) (en : Coord) (b : Board) : Except String (Option Castling) :=
  if p.pos = ((4 : Int), p.castleY) ∧ en = ((2 : Int), p.castleY) then do
    let c := mkCastling p.castleY 1 4
    let v ← c.isValid p b
    return (if v then some c else none)
  else if p.pos = ((4 : Int), p.castleY) ∧ en = ((6 : Int), p.castleY) then do
    let c := mkCastling p.castleY 5 7
    let v ← c.isValid p b
    return (if v then some c else none)
  else
    Except.ok none

/-- `King.get_castling_moves`: validates each descriptor (errors
propagate) but adds both destinations regardless of the result. -/
def kingGetCastlingMoves (p : Piece) (b : Board) : Except String (Finset Coord) := do
  let _ ← kingIsCastling p ((2 : Int), p.castleY) b
  let _ ← kingIsCastling p ((6 : Int), p.castleY) b
  return {((2 : Int), p.castleY), ((6 : Int), p.castleY)}

/-- `King.find`: adjacency plus the (unconditionally added) castling
destinations, through `clean_moves`. -/
def kingFind (p : Piece) (x y : Int) (b : Board) : Except String (Finset Coord) := do
  let castlingMoves ← kingGetCastlingMoves p b
  return cleanMoves x y (kingNormalRaw x y ∪ castlingMoves)

/-- `King.check_move`: `check_blocks` over `find` (King skips the blocked
test inside `check_blocks`). -/
def kingCheckMove (p : Piece) (en : Coord) (b : Board) : Except String (Option (Finset Coord)) := do
  let moves ← kingFind p p.pos.1 p.pos.2 b
  checkBlocks p en b moves

/-- `find` dispatch over the six variants. -/
def Piece.find (p : Piece) (x y : Int) (b : Board) : Except String (Finset Coord) :=
  match p.kind with
  | Kind.rook => Except.ok (cleanMoves x y (rookRaw x y))
  | Kind.bishop => Except.ok (cleanMoves x y (bishopRaw x y))
  | Kind.knight => Except.ok (cleanMoves x y (knightRaw x y))
  | Kind.queen => Except.ok (cleanMoves x y (bishopRaw x y) ∪ cleanMoves x y (rookRaw x y))
  | Kind.pawn => pawnFind p x y b
  | Kind.king => kingFind p x y b

/-- `check_move` dispatch over the six variants. -/
def Piece.checkMove (p : Piece) (en : Coord) (b : Board) : Except String (Option (Finset Coord)) :=
  match p.kind with
  | Kind.king => kingCheckMove p en b
  | _ => checkMoveNonKing p en b

/-- The state of a `Move` command object: the deep-copied piece (whose
position/move counter the exec/undo methods mutate), the start and end
squares and the captured-piece snapshot. -/
structure MoveO where
  piece : Piece
  start : Coord
  en : Coord
  killed : Option Piece
deriving DecidableEq

/-- The state of a `CastlingMove` command object. -/
structure CastlO where
  king : Piece
  rookStart : Coord
  kingStart : Coord
  squares : List Coord
  kingEnd : Coord
  rookEnd : Coord
  rook : Option Piece
deriving DecidableEq

inductive MoveObj
  | move (m : MoveO)
  | castl (c : CastlO)
deriving DecidableEq

/--
`Move.exec`: clear the start square, move the (aliased) piece, record a
capture into `board.killed`, place the piece on the end square and
increment its move counter (the increment happens through the alias, so
the piece on the board carries it too).
-/
def MoveO.exec (m : MoveO) (b : Board) : Except String (MoveO × Board) := do
  let b1 := b.set m.piece.pos none
  let atEnd ← b1.get? m.en
  let withKill : Option Piece × Board :=
    match atEnd with
    | some victim => (some victim, { b1 with killed := b1.killed ++ [victim] })
    | none => (m.killed, b1)
  let p2 := { m.piece with pos := m.en, moved := m.piece.moved + 1 }
  let b3 := withKill.2.set m.en (some p2)
  return ({ m with piece := p2, killed := withKill.1 }, b3)

/-- `Move.undo`: put the piece back on the start square, restore the end
square to the captured piece (or empty); the move-counter decrement is
commented out in the source, and `board.killed` is not touched. -/
def MoveO.undo (m : MoveO) (b : Board) : MoveO × Board :=
  let p1 := { m.piece with pos := m.start }
  let b1 := b.set m.start (some p1)
  let b2 := b1.set m.en m.killed
  ({ m with piece := p1 }, b2)

/-- `Move.post_exec`: undo and report failure when the mover's king is
attacked, otherwise succeed. -/
def MoveO.postExec (m : MoveO) (b : Board) : Except String (Bool × MoveO × Board) := do
  let ka ← kingAttacked b
  if ka then
    let u := m.undo b
    return (false, u.1, u.2)
  else
    return (true, m, b)

/-- `CastlingMove.exec`: deep-copy the rook found on `rook_start`
(AttributeError when that square is empty), clear both start squares,
place both pieces on their end squares and increment both counters
(again through aliasing). -/
def CastlO.exec (c : CastlO) (b : Board) : Except String (CastlO × Board) := do
  let rookOpt ← b.get? c.rookStart
  match rookOpt with
  | none => Except.error "AttributeError"
  | some rk =>
      let b1 := b.set rk.pos none
      let b2 := b1.set c.king.pos none
      let rk2 := { rk with pos := c.rookEnd, moved := rk.moved + 1 }
      let kg2 := { c.king with pos := c.kingEnd, moved := c.king.moved + 1 }
      let b3 := (b2.set c.rookEnd (some rk2)).set c.kingEnd (some kg2)
      return ({ c with rook := some rk2, king := kg2 }, b3)

/-- `Piece.get_move` (the base-class version): build a `Move` when
`check_move` is truthy, otherwise report `False`. -/
def genericGetMove (p : Piece) (en : Coord) (b : Board) : Except String (Option MoveObj) := do
  let r ← Piece.checkMove p en b
  if checkMoveTruthy r then
    return some (MoveObj.move { piece := p, start := p.pos, en := en, killed := none })
  else
    return none

/-- `King.get_move`: try castling first, fall back to the base class. -/
def Piece.getMove (p : Piece) (en : Coord) (b : Board) : Except String (Option MoveObj) :=
  match p.kind with
  | Kind.king => do
      let c ← kingIsCastling p en b
      match c with
      | none => genericGetMove p en b
      | some cast =>
          return some (MoveObj.castl
            { king := p, rookStart := cast.rookStart, kingStart := p.pos,
              squares := cast.squares, kingEnd := cast.kingEnd, rookEnd := cast.rookEnd,
              rook := none })
  | _ => genericGetMove p en b

/-- `GameEngine`: the board plus the two history stacks. -/
structure EngineState where
  board : Board
  moves : List MoveObj := []
  undone : List MoveObj := []

/--
`GameEngine._move`: execute, post-validate; on success flip the turn and
push to history, on a failed self-check keep the rolled-back board and
report `None` (falsy). `CastlingMove.post_exec` returns True
unconditionally.
-/
def engineMoveAux (st : EngineState) (mo : MoveObj) : Except String (Bool × EngineState) := do
  match mo with
  | MoveObj.move m =>
      let r1 ← m.exec st.board
      let r2 ← r1.1.postExec r1.2
      match r2 with
      | (true, m2, b2) =>
          return (true, { board := b2.flipColor, moves := st.moves ++ [MoveObj.move m2],
                          undone := st.undone })
      | (false, _, b2) =>
          return (false, { st with board := b2 })
  | MoveObj.castl c =>
      let r1 ← c.exec st.board
      return (true, { board := r1.2.flipColor, moves := st.moves ++ [MoveObj.castl r1.1],
                      undone := st.undone })

/--
`GameEngine.move`: raise on a wrong turn; report `False` when the start
square is empty or the piece has no move to the end; otherwise `_move`.
The wrong-turn raise happens before any mutation, so the state is
returned unchanged alongside the error. (The engine's internal lookups
never error on the boards of this development, so returning the pre-call
state on the other error paths is never exercised.)
-/
def engineMove (st : EngineState) (start en : Coord) (player : Color) :
    Except String Bool × EngineState :=
  if ¬(player = st.board.turn) then
    (Except.error "Its not your turn", st)
  else
    match st.board.get? start with
    | Except.error e => (Except.error e, st)
    | Except.ok none => (Except.ok false, st)
    | Except.ok (some piece) =>
        match piece.getMove en st.board with
        | Except.error e => (Except.error e, st)
        | Except.ok none => (Except.ok false, st)
        | Except.ok (some mo) =>
            match engineMoveAux st mo with
            | Except.error e => (Except.error e, st)
            | Except.ok r => (Except.ok r.1, r.2)

/-- Build a board from an association list of occupied squares (the
remaining squares of the 64 are empty), with an empty killed list. -/
def mkBoard (l : List (Coord × Piece)) (t : Color) : Board :=
  { occ := fun p => l.lookup p, killed := [], turn := t, playerDown := Color.W }

/-- Discriminator: is a history entry a castling command? -/
def isCastl : MoveObj → Bool
  | MoveObj.castl _ => true
  | MoveObj.move _ => false

/-- `_move` committed: it returned `True` (as opposed to `None`/an error). -/
def commitsOk : Except String (Bool × EngineState) → Bool
  | Except.ok (true, _) => true
  | _ => false

/-- A board is coherent when every occupied square's piece records that
square as its `position` attribute — true of every board the engine
builds and maintains. -/
def Board.coherent (b : Board) : Prop :=
  ∀ q pc, checkRange q = true → b.occ q = some pc → pc.pos = q

/-! Concrete scenario inputs used by the claim theorems. -/

/-- C1: a white Rook at (0,0), a blocker at (0,3), empty (0,5). -/
def c1Rook : Piece := { kind := Kind.rook, color := Color.W, pos := (0, 0) }

def c1Blocker : Piece := { kind := Kind.knight, color := Color.W, pos := (0, 3) }

def c1Board : Board := mkBoard [((0, 0), c1Rook), ((0, 3), c1Blocker)] Color.W

/-- C2: a white Queen at (0,0), a friendly Knight on the destination
(0,5), the white King safe at (7,7). -/
def c2Queen : Piece := { kind := Kind.queen, color := Color.W, pos := (0, 0) }

def c2Knight : Piece := { kind := Kind.knight, color := Color.W, pos := (0, 5) }

def c2King : Piece := { kind := Kind.king, color := Color.W, pos := (7, 7), castleY := 7 }

def c2Board : Board :=
  mkBoard [((0, 0), c2Queen), ((0, 5), c2Knight), ((7, 7), c2King)] Color.W

def c2St : EngineState := { board := c2Board }

/-- C3: a white Rook at (0,0) capturing the black Knight at (0,5). -/
def c3Rook : Piece := { kind := Kind.rook, color := Color.W, pos := (0, 0) }

def c3BKnight : Piece := { kind := Kind.knight, color := Color.B, pos := (0, 5) }

def c3Board : Board := mkBoard [((0, 0), c3Rook), ((0, 5), c3BKnight)] Color.W

/-- The `Move` object `Move(c3Rook, (0,5))` that `get_move` builds. -/
def c3Move : MoveO := { piece := c3Rook, start := (0, 0), en := (0, 5), killed := none }

/-- C4: white King (4,0) and Rook (7,0), both unmoved; a black pawn at
(7,1) moving toward rank 0 covers the castling destination (6,0) but
attacks no pre-move transit square (its forward square (7,0) is
occupied and its capture squares are empty before the move). -/
def c4King : Piece := { kind := Kind.king, color := Color.W, pos := (4, 0), castleY := 0 }

def c4Rook : Piece := { kind := Kind.rook, color := Color.W, pos := (7, 0) }

def c4Pawn : Piece :=
  { kind := Kind.pawn, color := Color.B, pos := (7, 1), yInitial := 6, yAdd := -1 }

def c4Board : Board :=
  mkBoard [((4, 0), c4King), ((7, 0), c4Rook), ((7, 1), c4Pawn)] Color.W

def c4St : EngineState := { board := c4Board }

/-- Witness input for the amended C4: a plain committed rook move. -/
def c4wRook : Piece := { kind := Kind.rook, color := Color.W, pos := (0, 0) }

def c4wKing : Piece := { kind := Kind.king, color := Color.W, pos := (7, 7), castleY := 7 }

def c4wSt : EngineState :=
  { board := mkBoard [((0, 0), c4wRook), ((7, 7), c4wKing)] Color.W }

def c4wMove : MoveO := { piece := c4wRook, start := (0, 0), en := (0, 1), killed := none }

/-- C5: the white Rook at (4,1) is pinned against its King (4,0) by the
black Rook (4,6); capturing the black pawn at (0,1) exposes the King and
is rolled back. -/
def c5King : Piece := { kind := Kind.king, color := Color.W, pos := (4, 0), castleY := 0 }

def c5Rook : Piece := { kind := Kind.rook, color := Color.W, pos := (4, 1) }

def c5BRook : Piece := { kind := Kind.rook, color := Color.B, pos := (4, 6) }

def c5BPawn : Piece :=
  { kind := Kind.pawn, color := Color.B, pos := (0, 1), yInitial := 1, yAdd := 1 }

def c5Board : Board :=
  mkBoard [((4, 0), c5King), ((4, 1), c5Rook), ((4, 6), c5BRook), ((0, 1), c5BPawn)] Color.W

def c5St : EngineState := { board := c5Board }

/-- C6: any position with White to move, probed by Black. -/
def c6St : EngineState := { board := mkBoard [] Color.W }

/-- C7: the white King at (4,0) has moved twice (and returned), the
kingside Rook (7,0) never moved; transit squares empty and unattacked. -/
def c7King : Piece :=
  { kind := Kind.king, color := Color.W, pos := (4, 0), moved := 2, castleY := 0 }

def c7Rook : Piece := { kind := Kind.rook, color := Color.W, pos := (7, 0) }

def c7Board : Board := mkBoard [((4, 0), c7King), ((7, 0), c7Rook)] Color.W

/-- C8: King and both Rooks have moved, so both castling descriptors are
invalid; the two-square destination (6,0) is still reachable. -/
def c8King : Piece :=
  { kind := Kind.king, color := Color.W, pos := (4, 0), moved := 1, castleY := 0 }

def c8RookA : Piece := { kind := Kind.rook, color := Color.W, pos := (0, 0), moved := 1 }

def c8RookH : Piece := { kind := Kind.rook, color := Color.W, pos := (7, 0), moved := 1 }

def c8Board : Board :=
  mkBoard [((4, 0), c8King), ((0, 0), c8RookA), ((7, 0), c8RookH)] Color.W

def c8St : EngineState := { board := c8Board }

/-- C9 counterexample: a pawn standing on the last rank of its forward
direction (moving toward increasing y, standing on y = 7). -/
def c9Pawn : Piece :=
  { kind := Kind.pawn, color := Color.B, pos := (0, 7), yInitial := 1, yAdd := 1 }

def c9Board : Board := mkBoard [((0, 7), c9Pawn)] Color.W

/-- C9 witness: a Knight at (1,0) on an empty board (Scenario A). -/
def c9Knight : Piece := { kind := Kind.knight, color := Color.W, pos := (1, 0) }

def c9EmptyBoard : Board := mkBoard [] Color.W

/-- The set `find` yields for the C9 witness knight: evaluates to
Scenario A's {(0,2),(2,2),(3,1)}. -/
def c9KnightSet : Finset Coord := cleanMoves 1 0 (knightRaw 1 0)

/-- C10: a black Rook at (0,0) moved by White on White's turn; the white
King at (7,7) stays safe. -/
def c10Rook : Piece := { kind := Kind.rook, color := Color.B, pos := (0, 0) }

def c10King : Piece := { kind := Kind.king, color := Color.W, pos := (7, 7), castleY := 7 }

def c10Board : Board := mkBoard [((0, 0), c10Rook), ((7, 7), c10King)] Color.W

def c10St : EngineState := { board := c10Board }

/-!  Claim theorems. -/

/--
C1. The claim says a sliding piece's move fails whenever any square
strictly between start and destination is occupied. Counter-evaluation:
with the Rook on (0,0), a piece on (0,3) and the empty destination
(0,5), `check_move` returns a truthy (nonempty) move set, because
`check_blocks` only counts occupied candidate squares (one occupied
square is tolerated anywhere on the path) and never checks that the
single tolerated occupied square is the destination.
-/
theorem c1_rook_single_blocker_passes :
    c1Board.occ (0, 3) = some c1Blocker ∧
      (Piece.checkMove c1Rook (0, 5) c1Board).map checkMoveTruthy = Except.ok true := by
  decide

/--
C2. The claim says every variant including the Queen rejects a
destination occupied by a friendly piece. Counter-evaluation: the
Queen's `check_move` carries no `check_blocks` decorator, so with a
friendly Knight on (0,5) it still returns a truthy set, and
`GameEngine.move` executes and commits the move, capturing the mover's
own piece.
-/
theorem c2_queen_friendly_destination_accepted :
    c2Board.occ (0, 5) = some c2Knight ∧ c2Knight.color = c2Queen.color ∧
      (Piece.checkMove c2Queen (0, 5) c2Board).map checkMoveTruthy = Except.ok true ∧
      (engineMove c2St (0, 0) (0, 5) Color.W).1 = Except.ok true ∧
      (engineMove c2St (0, 0) (0, 5) Color.W).2.board.killed = [c2Knight] := by
  decide

/--
C3. The claim says `execute` followed by `undo` restores the Board per
Board equality, including the captured-piece list, for capturing moves
too. Counter-evaluation: on the capture of the black Knight at (0,5)
the round trip leaves the victim in `board.killed` (undo restores the
occupancy but never pops the captured list), so `Board.__eq__` fails.
-/
theorem c3_exec_undo_capture_not_restored :
    Piece.getMove c3Rook (0, 5) c3Board = Except.ok (some (MoveObj.move c3Move)) ∧
      (c3Move.exec c3Board).map (fun r => boardEq (r.1.undo r.2).2 c3Board) =
        Except.ok false ∧
      (c3Move.exec c3Board).map (fun r => (r.1.undo r.2).2.killed) =
        Except.ok [c3BKnight] := by
  decide

/--
C4 (counterexample). The claim says no move whose execution leaves the
mover's own king attacked is ever pushed onto history. Evaluation: the
kingside castling passes `Castling.is_valid` (the black pawn attacks no
transit square before the move because its capture squares are then
empty), `CastlingMove.post_exec` is unconditionally true, the move is
committed to history — and afterwards the pawn at (7,1) attacks the
king's new square (6,0).
-/
theorem c4_castling_committed_leaves_king_attacked :
    (engineMove c4St (4, 0) (6, 0) Color.W).1 = Except.ok true ∧
      ((engineMove c4St (4, 0) (6, 0) Color.W).2.moves.map isCastl) = [true] ∧
      kingAttacked { (engineMove c4St (4, 0) (6, 0) Color.W).2.board with turn := Color.W } =
        Except.ok true := by
  decide

/--
C5. The claim says a failed `GameEngine.move` leaves the Board equal to
its pre-call state, including the captured-piece list, with the
self-check case restored by the rollback. Counter-evaluation: the
pinned Rook's capture of the pawn at (0,1) is rejected by the
self-check and rolled back — occupancy and turn are restored, but the
speculatively captured pawn stays in `board.killed`, so the post-call
Board is not equal to the pre-call one.
-/
theorem c5_self_check_rollback_pollutes_killed :
    (engineMove c5St (4, 1) (0, 1) Color.W).1 = Except.ok false ∧
      (engineMove c5St (4, 1) (0, 1) Color.W).2.board.turn = Color.W ∧
      ((engineMove c5St (4, 1) (0, 1) Color.W).2.board.occ (0, 1)) = some c5BPawn ∧
      (engineMove c5St (4, 1) (0, 1) Color.W).2.board.killed = [c5BPawn] ∧
      boardEq (engineMove c5St (4, 1) (0, 1) Color.W).2.board c5Board = false := by
  decide

/--
C6 (counterexample). The claim says a wrong-turn call returns a boolean
failure and never a thrown fault. Counter-evaluation: with White to
move, Black's call raises (`raise Exception("Its not your turn...")`),
modelled as the `Except.error`; the engine state is untouched.
-/
theorem c6_wrong_turn_raises :
    (engineMove c6St (0, 0) (1, 0) Color.B).1 = Except.error "Its not your turn" ∧
      (engineMove c6St (0, 0) (1, 0) Color.B).2 = c6St :=
  And.intro (by decide) rfl

/--
C7. The claim says `Castling.is_valid` rejects whenever either the king
or the rook has moved. Counter-evaluation: with the king's counter at 2
and the rook's at 0, the check `not(rook.moved is 0 or king.moved is 0)`
(an `or` where the rule needs `and`) does not fire and validation
succeeds.
-/
theorem c7_castling_accepted_with_moved_king :
    c7King.moved = 2 ∧ Castling.isValid (mkCastling 0 5 7) c7King c7Board = Except.ok true := by
  decide

/--
C8. The claim says the King reaches a two-square castling destination
only through a valid castling. Counter-evaluation: with king and both
rooks already moved, `is_castling` reports the castling invalid, yet
`King.get_castling_moves` has added (6,0) to `find` unconditionally, so
the King relocates two squares as an ordinary single-piece `Move`
(the rook stays on (7,0)) and `GameEngine.move` succeeds.
-/
theorem c8_invalid_castling_king_still_moves_two_squares :
    kingIsCastling c8King (6, 0) c8Board = Except.ok none ∧
      (engineMove c8St (4, 0) (6, 0) Color.W).1 = Except.ok true ∧
      ((engineMove c8St (4, 0) (6, 0) Color.W).2.moves.map isCastl) = [false] ∧
      ((engineMove c8St (4, 0) (6, 0) Color.W).2.board.occ (7, 0)) = some c8RookH ∧
      ((engineMove c8St (4, 0) (6, 0) Color.W).2.board.occ (6, 0)) =
        some { c8King with pos := (6, 0), moved := 2 } := by
  decide

/--
C9 (counterexample). The claim says `find` excludes the origin and
out-of-range coordinates for every variant, "including a Pawn standing
on the last rank in its forward direction". Counter-evaluation: for the
pawn on (0,7) with forward direction +1, `_find_non_kill_moves` looks up
`board[(0,8)]` unguarded and raises KeyError instead of returning a set.
-/
theorem c9_pawn_last_rank_find_raises :
    checkRange (0, 7) = true ∧ Piece.find c9Pawn 0 7 c9Board = Except.error "KeyError" := by
  decide

/--
C10. `GameEngine.move` never compares the moved piece's color with the
calling player: with White to move, White's call relocates the *black*
Rook from (0,0) to (0,5); the move validates, executes, is committed to
history and reports success.
-/
theorem c10_opponent_piece_moves_on_players_turn :
    c10Board.turn = Color.W ∧ c10Rook.color = Color.B ∧
      c10Board.occ (0, 0) = some c10Rook ∧
      (engineMove c10St (0, 0) (0, 5) Color.W).1 = Except.ok true ∧
      ((engineMove c10St (0, 0) (0, 5) Color.W).2.board.occ (0, 5)) =
        some { c10Rook with pos := (0, 5), moved := 1 } ∧
      ((engineMove c10St (0, 0) (0, 5) Color.W).2.moves.map isCastl) = [false] := by
  decide

/--
C6 (amended). A wrong-turn call fails with the thrown wrong-turn fault
(not a boolean), before any mutation: the engine state is returned
unchanged.
-/
theorem c6_wrong_turn_error_state_unchanged (st : EngineState) (s e : Coord) (pl : Color)
    (h : ¬ pl = st.board.turn) :
    engineMove st s e pl = (Except.error "Its not your turn", st) := by
  simp [engineMove, h]

theorem c6_wrong_turn_error_state_unchanged_witness :
    engineMove c6St (0, 0) (1, 0) Color.B = (Except.error "Its not your turn", c6St) :=
  c6_wrong_turn_error_state_unchanged c6St (0, 0) (1, 0) Color.B (by decide)

/--
C4 (amended). For ordinary (non-castling) moves the self-check gate does
hold: whenever `_move` commits an ordinary `Move` (returns True), the
post-execution board had the mover's king unattacked. (Castling moves
are exempt, as `c4_castling_committed_leaves_king_attacked` shows.)
-/
theorem c4_ordinary_commit_implies_king_safe (st : EngineState) (m : MoveO)
    (h : commitsOk (engineMoveAux st (MoveObj.move m)) = true) :
    ∃ r : MoveO × Board, m.exec st.board = Except.ok r ∧ kingAttacked r.2 = Except.ok false := by
  rw [engineMoveAux] at h
  cases h1 : m.exec st.board with
  | error e =>
      rw [h1] at h
      simp [commitsOk, Bind.bind, Except.instMonad, Except.bind] at h
  | ok r1 =>
      rw [h1] at h
      simp only [MoveO.postExec, Bind.bind, Except.instMonad, Except.bind] at h
      cases h2 : kingAttacked r1.2 with
      | error e =>
          rw [h2] at h
          simp [commitsOk, Bind.bind, Except.instMonad, Except.bind, pure, Except.pure] at h
      | ok ka =>
          rw [h2] at h
          cases ka with
          | true =>
              simp [commitsOk, Bind.bind, Except.instMonad, Except.bind, pure, Except.pure] at h
          | false => exact ⟨r1, rfl, h2⟩

theorem c4_ordinary_commit_implies_king_safe_witness :
    ∃ r : MoveO × Board,
      c4wMove.exec c4wSt.board = Except.ok r ∧ kingAttacked r.2 = Except.ok false :=
  c4_ordinary_commit_implies_king_safe c4wSt c4wMove (by decide)

theorem mem_cleanMoves (x y : Int) (mv : Finset Coord) (m : Coord)
    (h : m ∈ cleanMoves x y mv) : ¬ m = (x, y) ∧ checkRange m = true := by
  unfold cleanMoves at h
  rcases Finset.mem_erase.mp h with ⟨h1, h2⟩
  exact ⟨h1, (Finset.mem_filter.mp h2).2⟩

theorem get?_ok_range (b : Board) (p : Coord) (o : Option Piece)
    (h : b.get? p = Except.ok o) : checkRange p = true := by
  cases hc : checkRange p with
  | true => rfl
  | false =>
      rw [Board.get?, hc] at h
      simp at h

theorem pawnNonKill_range (p : Piece) (x y : Int) (b : Board) (hy : ¬ p.yAdd = 0)
    (s : Finset Coord) (h : pawnNonKill p x y b = Except.ok s) (m : Coord) (hm : m ∈ s) :
    ¬ m = (x, y) ∧ checkRange m = true := by
  rw [pawnNonKill] at h
  cases h1 : b.get? (x, y + p.yAdd) with
  | error e =>
      rw [h1] at h
      simp [Bind.bind, Except.instMonad, Except.bind] at h
  | ok pieceAtA =>
      rw [h1] at h
      simp only [Bind.bind, Except.instMonad, Except.bind] at h
      have hrangeA : checkRange (x, y + p.yAdd) = true := get?_ok_range b _ _ h1
      have hneA : ¬ ((x, y + p.yAdd) : Coord) = (x, y) := by
        intro hcontra
        rw [Prod.mk.injEq] at hcontra
        omega
      by_cases hinit : y = p.yInitial
      · rw [if_pos hinit] at h
        cases h2 : b.get? (x, y + p.yAdd * 2) with
        | error e =>
            rw [h2] at h
            simp [Bind.bind, Except.instMonad, Except.bind] at h
        | ok pieceA =>
            rw [h2] at h
            simp only [Bind.bind, Except.instMonad, Except.bind] at h
            cases h3 : b.get? (x, y + p.yAdd * 2 - p.yAdd) with
            | error e =>
                rw [h3] at h
                simp [Bind.bind, Except.instMonad, Except.bind] at h
            | ok pieceB =>
                rw [h3] at h
                simp only [Bind.bind, Except.instMonad, Except.bind, pure, Except.pure] at h
                have hrangeB : checkRange (x, y + p.yAdd * 2) = true := get?_ok_range b _ _ h2
                have hneB : ¬ ((x, y + p.yAdd * 2) : Coord) = (x, y) := by
                  intro hcontra
                  rw [Prod.mk.injEq] at hcontra
                  omega
                by_cases hempty : pieceA = none ∧ pieceB = none
                · rw [if_pos hempty] at h
                  rcases Except.ok.inj h with rfl
                  rcases Finset.mem_union.mp hm with hm1 | hm2
                  · by_cases ha : pieceAtA = none
                    · rw [if_pos ha] at hm1
                      rcases Finset.mem_singleton.mp hm1 with rfl
                      exact ⟨hneA, hrangeA⟩
                    · rw [if_neg ha] at hm1
                      exact absurd hm1 (Finset.not_mem_empty m)
                  · rcases Finset.mem_singleton.mp hm2 with rfl
                    exact ⟨hneB, hrangeB⟩
                · rw [if_neg hempty] at h
                  rcases Except.ok.inj h with rfl
                  by_cases ha : pieceAtA = none
                  · rw [if_pos ha] at hm
                    rcases Finset.mem_singleton.mp hm with rfl
                    exact ⟨hneA, hrangeA⟩
                  · rw [if_neg ha] at hm
                    exact absurd hm (Finset.not_mem_empty m)
      · rw [if_neg hinit] at h
        simp only [pure, Except.pure] at h
        rcases Except.ok.inj h with rfl
        by_cases ha : pieceAtA = none
        · rw [if_pos ha] at hm
          rcases Finset.mem_singleton.mp hm with rfl
          exact ⟨hneA, hrangeA⟩
        · rw [if_neg ha] at hm
          exact absurd hm (Finset.not_mem_empty m)

theorem pawnKillMoves_range (p : Piece) (x y : Int) (b : Board) (hco : b.coherent)
    (m : Coord) (hm : m ∈ pawnKillMoves p x y b) : ¬ m = (x, y) ∧ checkRange m = true := by
  rw [pawnKillMoves] at hm
  rw [List.mem_toFinset] at hm
  rcases List.mem_map.mp hm with ⟨q, hq, rfl⟩
  rcases List.mem_filter.mp hq with ⟨hq1, _⟩
  rcases List.mem_filterMap.mp hq1 with ⟨a, ha, haq⟩
  rcases List.mem_map.mp ha with ⟨pos, hpos, hocc⟩
  rcases List.mem_filter.mp hpos with ⟨hpos1, hrange⟩
  have hrange2 : checkRange pos = true := by simpa using hrange
  have hocc2 : b.occ pos = some q := by
    rw [hocc]
    simpa using haq
  have hqpos : q.pos = pos := hco pos q hrange2 hocc2
  constructor
  · rw [hqpos]
    simp only [List.mem_cons, List.mem_singleton] at hpos1
    rcases hpos1 with h1 | h1 | h1
    · rw [h1]
      intro hcontra
      rw [Prod.mk.injEq] at hcontra
      omega
    · rw [h1]
      intro hcontra
      rw [Prod.mk.injEq] at hcontra
      omega
    · exact absurd h1 (List.not_mem_nil pos)
  · rw [hqpos]
    exact hrange2

theorem pawnFind_range (p : Piece) (x y : Int) (b : Board) (hco : b.coherent)
    (hy : ¬ p.yAdd = 0) (s : Finset Coord) (h : pawnFind p x y b = Except.ok s)
    (m : Coord) (hm : m ∈ s) : ¬ m = (x, y) ∧ checkRange m = true := by
  rw [pawnFind] at h
  cases h1 : pawnNonKill p x y b with
  | error e =>
      rw [h1] at h
      simp [Bind.bind, Except.instMonad, Except.bind] at h
  | ok nk =>
      rw [h1] at h
      simp only [Bind.bind, Except.instMonad, Except.bind, pure, Except.pure] at h
      rcases Except.ok.inj h with rfl
      rcases Finset.mem_union.mp hm with hm1 | hm2
      · exact pawnNonKill_range p x y b hy nk h1 m hm1
      · exact pawnKillMoves_range p x y b hco m hm2

/--
C9 (amended). On every coherent board (each occupied square's piece
records that square as its position — an invariant of every board the
engine builds), whenever `find(origin)` returns a set at all, that set
contains neither the origin nor any out-of-range coordinate — for every
variant. The pawn hypothesis `yAdd ≠ 0` records `Pawn.__init__`, which
only ever assigns -1 or 1. (The pawn on its last forward rank raises
KeyError instead of returning, as `c9_pawn_last_rank_find_raises`
shows, which is why the conclusion is conditional on a returned set.)
-/
theorem c9_find_in_range_no_origin (p : Piece) (x y : Int) (b : Board)
    (hco : b.coherent) (hpawn : p.kind = Kind.pawn → ¬ p.yAdd = 0)
    (s : Finset Coord) (h : p.find x y b = Except.ok s) :
    (x, y) ∉ s ∧ ∀ m ∈ s, checkRange m = true := by
  rcases p with ⟨k, c, pos, mv, yi, ya, cy⟩
  cases k with
  | rook =>
      rw [Piece.find] at h
      rcases Except.ok.inj h with rfl
      exact ⟨fun hmem => (mem_cleanMoves x y _ _ hmem).1 rfl,
        fun m hm => (mem_cleanMoves x y _ m hm).2⟩
  | bishop =>
      rw [Piece.find] at h
      rcases Except.ok.inj h with rfl
      exact ⟨fun hmem => (mem_cleanMoves x y _ _ hmem).1 rfl,
        fun m hm => (mem_cleanMoves x y _ m hm).2⟩
  | knight =>
      rw [Piece.find] at h
      rcases Except.ok.inj h with rfl
      exact ⟨fun hmem => (mem_cleanMoves x y _ _ hmem).1 rfl,
        fun m hm => (mem_cleanMoves x y _ m hm).2⟩
  | queen =>
      rw [Piece.find] at h
      rcases Except.ok.inj h with rfl
      constructor
      · intro hmem
        rcases Finset.mem_union.mp hmem with hm1 | hm1
        · exact (mem_cleanMoves x y _ _ hm1).1 rfl
        · exact (mem_cleanMoves x y _ _ hm1).1 rfl
      · intro m hm
        rcases Finset.mem_union.mp hm with hm1 | hm1
        · exact (mem_cleanMoves x y _ m hm1).2
        · exact (mem_cleanMoves x y _ m hm1).2
  | pawn =>
      rw [Piece.find] at h
      have hy : ¬ (Piece.mk Kind.pawn c pos mv yi ya cy).yAdd = 0 := hpawn rfl
      exact ⟨fun hmem => (pawnFind_range _ x y b hco hy s h _ hmem).1 rfl,
        fun m hm => (pawnFind_range _ x y b hco hy s h m hm).2⟩
  | king =>
      rw [Piece.find, kingFind] at h
      cases h1 : kingGetCastlingMoves (Piece.mk Kind.king c pos mv yi ya cy) b with
      | error e =>
          rw [h1] at h
          simp [Bind.bind, Except.instMonad, Except.bind] at h
      | ok cm =>
          rw [h1] at h
          simp only [Bind.bind, Except.instMonad, Except.bind, pure, Except.pure] at h
          rcases Except.ok.inj h with rfl
          exact ⟨fun hmem => (mem_cleanMoves x y _ _ hmem).1 rfl,
            fun m hm => (mem_cleanMoves x y _ m hm).2⟩

theorem c9_find_in_range_no_origin_witness :
    ((1 : Int), (0 : Int)) ∉ c9KnightSet ∧ ∀ m ∈ c9KnightSet, checkRange m = true :=
  c9_find_in_range_no_origin c9Knight 1 0 c9EmptyBoard
    (by
      intro q pc _ hocc
      simp [c9EmptyBoard, mkBoard, List.lookup] at hocc)
    (by intro hk; cases hk)
    c9KnightSet rfl
